import Mathlib

/-!
Verification development for the SENTINEL backtesting core.

Shallow embedding of the simulation and accounting engine:
  * `ExchangeMock` (src/cortex/gym/exchange_mock.py) — portfolio ledger with
    fee/slippage execution, modelled over exact rationals (the source uses
    Python floats; all arithmetic here is the same formulas over ℚ).
  * `TradingEnvironment` (src/cortex/gym/environment.py) — the step-wise
    simulation loop (reset/step), hold penalty, reward, bounded score.
  * `MetricsEngine` (src/cortex/metrics.py) — max drawdown and trade
    statistics.

Python dictionaries `positions : Dict[str, Position]` are modelled as total
functions `String → Position` whose default value is the freshly-created
`Position()` (quantity 0, avg price 0, invested 0); this is observationally
equivalent for all operations modelled here, because a missing key and a
closed default position behave identically in every read the source performs.
`get_portfolio_value` is modelled for the one-entry price maps the
environment always passes (the engine is single-instrument).
Timestamps are carried as opaque rationals.  Observation construction
(`_get_observation`) is pure read-only derived data and is not needed by any
claim, so it is not modelled.
-/

/-- Dust threshold used by the source (`1e-10`). -/
def dust : ℚ := 1 / 10 ^ 10

/-- Result of one executed operation (exchange_mock.py, `Fill`).
`timestamp`/`symbol` kept; `side` is the literal string the source stores. -/
structure Fill where
  timestamp : ℚ
  symbol : String
  side : String
  quantity : ℚ
  price : ℚ
  fee : ℚ
  total_cost : ℚ
  deriving Repr, DecidableEq, Inhabited

/-- Open position in one asset (exchange_mock.py, `Position`). -/
structure Position where
  quantity : ℚ := 0
  avg_entry_price : ℚ := 0
  total_invested : ℚ := 0
  deriving Repr, DecidableEq

/-- `Position.is_open`: `self.quantity > 1e-10`. -/
def Position.is_open (p : Position) : Bool :=
  dust < p.quantity

/-- Ledger state of the exchange simulator (exchange_mock.py, `ExchangeMock`). -/
structure ExchangeMock where
  initial_capital : ℚ
  fee_rate : ℚ
  slippage : ℚ
  cash : ℚ
  positions : String → Position
  trade_history : List Fill
  realized_pnl : ℚ

/-- `ExchangeMock.__init__`. -/
def ExchangeMock.init (initial_capital fee_rate slippage : ℚ) : ExchangeMock where
  initial_capital := initial_capital
  fee_rate := fee_rate
  slippage := slippage
  cash := initial_capital
  positions := fun _ => {}
  trade_history := []
  realized_pnl := 0

/-- `ExchangeMock.reset`. -/
def ExchangeMock.reset (ex : ExchangeMock) : ExchangeMock :=
  { ex with
    cash := ex.initial_capital
    positions := fun _ => {}
    trade_history := []
    realized_pnl := 0 }

/-- `ExchangeMock.buy`: returns the updated ledger and the fill
(`none` models Python returning `None`). -/
def ExchangeMock.buy (ex : ExchangeMock) (symbol : String) (usd_amount : ℚ)
    (market_price : ℚ) (timestamp : ℚ) : ExchangeMock × Option Fill :=
  if usd_amount ≤ 0 then (ex, none)
  else
    -- no gastar más de lo que tenemos
    let usd_amount := min usd_amount ex.cash
    if usd_amount < 0.01 then (ex, none)
    else
      let execution_price := market_price * (1 + ex.slippage)
      let fee := usd_amount * ex.fee_rate
      let effective_usd := usd_amount - fee
      let quantity := effective_usd / execution_price
      let pos := ex.positions symbol
      let total_qty := pos.quantity + quantity
      let avg :=
        if 0 < total_qty then
          (pos.avg_entry_price * pos.quantity + execution_price * quantity) / total_qty
        else pos.avg_entry_price
      let pos2 : Position :=
        { quantity := total_qty
          avg_entry_price := avg
          total_invested := pos.total_invested + effective_usd }
      let fill : Fill :=
        { timestamp := timestamp
          symbol := symbol
          side := "BUY"
          quantity := quantity
          price := execution_price
          fee := fee
          total_cost := usd_amount }
      ({ ex with
          cash := ex.cash - usd_amount
          positions := fun s => if s = symbol then pos2 else ex.positions s
          trade_history := ex.trade_history ++ [fill] },
        some fill)

/-- `ExchangeMock.sell`: `quantity? = none` models Python `quantity=None`
(sell everything). -/
def ExchangeMock.sell (ex : ExchangeMock) (symbol : String) (quantity? : Option ℚ)
    (market_price : ℚ) (timestamp : ℚ) : ExchangeMock × Option Fill :=
  let pos := ex.positions symbol
  if ¬ pos.is_open then (ex, none)
  else
    let quantity := match quantity? with | none => pos.quantity | some q => q
    let quantity := min quantity pos.quantity
    if quantity < dust then (ex, none)
    else
      let execution_price := market_price * (1 - ex.slippage)
      let gross_value := quantity * execution_price
      let fee := gross_value * ex.fee_rate
      let net_value := gross_value - fee
      let cost_basis := pos.avg_entry_price * quantity
      let trade_pnl := net_value - cost_basis
      let newq := pos.quantity - quantity
      let pos2 : Position :=
        if newq < dust then {}
        else { pos with quantity := newq }
      let fill : Fill :=
        { timestamp := timestamp
          symbol := symbol
          side := "SELL"
          quantity := quantity
          price := execution_price
          fee := fee
          total_cost := net_value }
      ({ ex with
          realized_pnl := ex.realized_pnl + trade_pnl
          cash := ex.cash + net_value
          positions := fun s => if s = symbol then pos2 else ex.positions s
          trade_history := ex.trade_history ++ [fill] },
        some fill)

/-- `ExchangeMock.get_portfolio_value` specialised to the single-entry price
map the environment always supplies: cash plus the open position's market
value at the supplied price. -/
def ExchangeMock.get_portfolio_value (ex : ExchangeMock) (symbol : String)
    (price : ℚ) : ℚ :=
  ex.cash + (if (ex.positions symbol).is_open then (ex.positions symbol).quantity * price else 0)

/-- One row of the historical data (`data` DataFrame): only the fields the
engine's step loop reads (`close`, `timestamp`, `sentiment_score`). -/
structure Row where
  timestamp : ℚ
  close : ℚ
  sentiment_score : ℚ
  deriving Repr, DecidableEq

/-- Action encoding (environment.py): HOLD = 0. -/
def HOLD : ℕ := 0

/-- Action encoding (environment.py): BUY = 1. -/
def BUY : ℕ := 1

/-- Action encoding (environment.py): SELL = 2. -/
def SELL : ℕ := 2

/-- `ACTION_NAMES.get(action, "UNKNOWN")`. -/
def actionName : ℕ → String
  | 0 => "HOLD"
  | 1 => "BUY"
  | 2 => "SELL"
  | _ => "UNKNOWN"

/-- One entry of `self.step_log`. -/
structure StepRecord where
  timestamp : ℚ
  action : String
  price : ℚ
  portfolio_value : ℚ
  cash : ℚ
  position_qty : ℚ
  reward : ℚ
  score : ℚ
  hold_penalty : ℚ
  sentiment : ℚ
  deriving Repr, DecidableEq

/-- The errors `step()` can raise: the terminal guard (`RuntimeError`) and a
pandas `iloc` out-of-range access. -/
inductive StepError where
  | environmentDone
  | indexOutOfRange
  deriving Repr, DecidableEq

/-- What `step()` returns besides the mutated state: reward, terminated flag,
and the info payload parts the claims read (fill, hold penalty). -/
structure StepResult where
  reward : ℚ
  terminated : Bool
  fill : Option Fill
  hold_penalty : ℚ
  deriving Repr, DecidableEq

/-- Simulation engine state (environment.py, `TradingEnvironment`). -/
structure TradingEnvironment where
  data : List Row
  initial_capital : ℚ
  risk_per_trade_pct : ℚ
  window_size : ℕ
  symbol : String
  hold_penalty_rate : ℚ
  exchange : ExchangeMock
  current_step : ℕ
  done : Bool
  equity_curve : List ℚ
  trade_pnls : List ℚ
  step_log : List StepRecord
  score : ℚ
  score_history : List ℚ
  total_hold_penalty : ℚ

/-- `TradingEnvironment.__init__` (the precomputed `returns` column only
feeds observations, which are not modelled). -/
def TradingEnvironment.init (data : List Row) (initial_capital fee_rate slippage
    risk_per_trade_pct : ℚ) (window_size : ℕ) (symbol : String)
    (hold_penalty_rate : ℚ) : TradingEnvironment where
  data := data
  initial_capital := initial_capital
  risk_per_trade_pct := risk_per_trade_pct
  window_size := window_size
  symbol := symbol
  hold_penalty_rate := hold_penalty_rate
  exchange := ExchangeMock.init initial_capital fee_rate slippage
  current_step := 0
  done := false
  equity_curve := []
  trade_pnls := []
  step_log := []
  score := 1000
  score_history := []
  total_hold_penalty := 0

/-- `TradingEnvironment.reset` (the returned observation is not modelled). -/
def TradingEnvironment.reset (env : TradingEnvironment) : TradingEnvironment :=
  { env with
    current_step := env.window_size
    done := false
    exchange := env.exchange.reset
    equity_curve := []
    trade_pnls := []
    step_log := []
    score := 1000
    score_history := []
    total_hold_penalty := 0 }

/-- The action-dispatch block of `TradingEnvironment.step` ("ejecutar
acción"): applies HOLD / BUY / SELL (anything else is a no-op, as in the
source) and returns the mutated state, the fill, and the hold penalty. -/
def TradingEnvironment.applyAction (env : TradingEnvironment) (action : ℕ)
    (price timestamp prev_value : ℚ) : TradingEnvironment × Option Fill × ℚ :=
  if action = HOLD then
    let penalty := env.exchange.cash * env.hold_penalty_rate
    if 0.01 < penalty then
      ({ env with
          exchange := { env.exchange with cash := env.exchange.cash - penalty }
          total_hold_penalty := env.total_hold_penalty + penalty },
        (none : Option Fill), penalty)
    else (env, none, 0)
  else if action = BUY then
    let trade_amount := prev_value * env.risk_per_trade_pct
    let bought := env.exchange.buy env.symbol trade_amount price timestamp
    ({ env with exchange := bought.1 }, bought.2, 0)
  else if action = SELL then
    let sold := env.exchange.sell env.symbol none price timestamp
    let env2 := { env with exchange := sold.1 }
    match sold.2 with
    | some fill =>
      ({ env2 with
          trade_pnls := env2.trade_pnls ++ [fill.total_cost - fill.quantity * fill.price] },
        some fill, 0)
    | none => (env2, none, 0)
  else (env, none, 0)

/-- Body of `TradingEnvironment.step` once the terminal guard has passed and
the row at the cursor has been read. -/
def TradingEnvironment.stepCore (env : TradingEnvironment) (action : ℕ) (row : Row) :
    TradingEnvironment × Except StepError StepResult :=
      let price := row.close
      let timestamp := row.timestamp
      let prev_value := env.exchange.get_portfolio_value env.symbol price
      let acted := env.applyAction action price timestamp prev_value
      let env1 := acted.1
      let fill := acted.2.1
      let hold_penalty := acted.2.2
      let current_value := env1.exchange.get_portfolio_value env1.symbol price
      let env2 := { env1 with equity_curve := env1.equity_curve ++ [current_value] }
      let reward := if 0 < prev_value then (current_value - prev_value) / prev_value else 0
      let score1 :=
        if 0 < reward then env2.score + reward * 100
        else if reward < 0 then env2.score + reward * 150
        else env2.score
      let score2 :=
        if 0 < hold_penalty then score1 - hold_penalty / env2.initial_capital * 50
        else score1
      let score3 := max 0 (min 1000 score2)
      let record : StepRecord :=
        { timestamp := timestamp
          action := actionName action
          price := price
          portfolio_value := current_value
          cash := env2.exchange.cash
          position_qty := (env2.exchange.positions env2.symbol).quantity
          reward := reward
          score := score3
          hold_penalty := hold_penalty
          sentiment := row.sentiment_score }
      let terminated := Nat.ble (env2.data.length - 1) (env2.current_step + 1)
      ({ env2 with
          score := score3
          score_history := env2.score_history ++ [score3]
          step_log := env2.step_log ++ [record]
          current_step := env2.current_step + 1
          done := terminated },
        .ok { reward := reward
              terminated := terminated
              fill := fill
              hold_penalty := hold_penalty })

/-- `TradingEnvironment.step`: returns the state after the call together with
either the step outcome or the error raised.  The terminal guard (the
`RuntimeError` of the source) fires before any mutation, so both error
branches return the state unchanged, exactly as the source does. -/
def TradingEnvironment.stepM (env : TradingEnvironment) (action : ℕ) :
    TradingEnvironment × Except StepError StepResult :=
  if env.done then (env, .error .environmentDone)
  else
    match env.data.get? env.current_step with
    | none => (env, .error .indexOutOfRange)
    | some row => env.stepCore action row

/-- Runs a list of actions through `stepM`; a raised error aborts the run and
leaves the state as it was at the raise (the raise mutates nothing). -/
def TradingEnvironment.runSteps (env : TradingEnvironment) :
    List ℕ → TradingEnvironment
  | [] => env
  | a :: rest =>
    match env.stepM a with
    | (env1, .ok _) => env1.runSteps rest
    | (env1, .error _) => env1

/-- Loop body of `MetricsEngine.max_drawdown` (metrics.py): carries the
running peak, the best drawdown so far (`max_dd`), `dd_start`,
`max_dd_duration` and `current_dd_start`, walking the values with their
index `i`.  Returns `(max_dd * 100, max_dd_duration)` at the end. -/
def ddLoop (i : ℕ) (peak max_dd : ℚ) (dd_start max_dd_duration current_dd_start : ℕ) :
    List ℚ → ℚ × ℕ
  | [] => (max_dd * 100, max_dd_duration)
  | val :: rest =>
    if peak ≤ val then
      ddLoop (i + 1) val max_dd dd_start max_dd_duration i rest
    else
      let dd := (peak - val) / peak
      if max_dd < dd then
        ddLoop (i + 1) peak dd current_dd_start (i - current_dd_start) current_dd_start rest
      else
        ddLoop (i + 1) peak max_dd dd_start max_dd_duration current_dd_start rest

/-- `MetricsEngine.max_drawdown`: `(max_dd_pct, duration)`; `(0, 0)` for
fewer than 2 points.  The peak starts at `values[0]` and the loop then visits
every value, index 0 included, as in the source. -/
def MetricsEngine.max_drawdown (equity_curve : List ℚ) : ℚ × ℕ :=
  match equity_curve with
  | [] => (0, 0)
  | [_] => (0, 0)
  | v0 :: rest => ddLoop 0 v0 0 0 0 0 (v0 :: rest)

/-- The dictionary returned by `MetricsEngine.analyze_trades`; the profit
factor lives in `WithTop ℚ`, whose `⊤` models the Python value
`float("inf")`. -/
structure TradeStats where
  total_trades : ℕ
  winning_trades : ℕ
  losing_trades : ℕ
  win_rate : ℚ
  profit_factor : WithTop ℚ
  avg_win : ℚ
  avg_loss : ℚ
  deriving DecidableEq

/-- `MetricsEngine.analyze_trades`. -/
def MetricsEngine.analyze_trades (trade_pnls : List ℚ) : TradeStats :=
  if trade_pnls = [] then
    { total_trades := 0
      winning_trades := 0
      losing_trades := 0
      win_rate := 0
      profit_factor := (0 : ℚ)
      avg_win := 0
      avg_loss := 0 }
  else
    let wins := trade_pnls.filter (fun p => 0 < p)
    let losses := trade_pnls.filter (fun p => p ≤ 0)
    let gross_profit := wins.sum
    let gross_loss := |losses.sum|
    { total_trades := trade_pnls.length
      winning_trades := wins.length
      losing_trades := losses.length
      win_rate := (wins.length : ℚ) / (trade_pnls.length : ℚ) * 100
      profit_factor := if 0 < gross_loss then ((gross_profit / gross_loss : ℚ) : WithTop ℚ) else ⊤
      avg_win := if wins.length = 0 then 0 else wins.sum / (wins.length : ℚ)
      avg_loss := if losses.length = 0 then 0 else losses.sum / (losses.length : ℚ) }

/-- One ledger operation, for quantifying over arbitrary buy/sell sequences. -/
inductive LedgerOp where
  | buyOp (symbol : String) (usd_amount market_price timestamp : ℚ)
  | sellOp (symbol : String) (quantity? : Option ℚ) (market_price timestamp : ℚ)

/-- The market price an operation trades at. -/
def LedgerOp.marketPrice : LedgerOp → ℚ
  | .buyOp _ _ p _ => p
  | .sellOp _ _ p _ => p

/-- Applies one ledger operation, keeping the state (the caller may ignore
the fill, as the reachability claims do). -/
def ExchangeMock.applyOp (ex : ExchangeMock) : LedgerOp → ExchangeMock
  | .buyOp s a p t => (ex.buy s a p t).1
  | .sellOp s q p t => (ex.sell s q p t).1

/-- Runs a sequence of ledger operations. -/
def ExchangeMock.runOps (ex : ExchangeMock) : List LedgerOp → ExchangeMock
  | [] => ex
  | op :: rest => (ex.applyOp op).runOps rest

/-- Scenario A ledger: initial_capital 100, fee_rate 0.001, slippage 0.0005. -/
def exA : ExchangeMock := ExchangeMock.init 100 (1/1000) (1/2000)

/-- Scenario A: BUY 50 USD at market price 100. -/
def buyA : ExchangeMock × Option Fill := exA.buy "BTCUSDT" 50 100 0

/-- The fill of the Scenario A BUY. -/
def buyFillA : Fill := buyA.2.getD default

/-- Scenario A: SELL the whole position at market price 110. -/
def sellA : ExchangeMock × Option Fill := buyA.1.sell "BTCUSDT" none 110 1

/-- The fill of the Scenario A SELL. -/
def sellFillA : Fill := sellA.2.getD default

/-- Four-row price series (closes 100, 110, 110, 110) used for the concrete
environment runs. -/
def rowsA : List Row := [⟨0, 100, 0⟩, ⟨1, 110, 0⟩, ⟨2, 110, 0⟩, ⟨3, 110, 0⟩]

/-- Environment over `rowsA` (initial capital 100, fee 0.001, slippage
0.0005, risk 50 percent, window 0, hold penalty 5 percent), after reset. -/
def envRT : TradingEnvironment :=
  (TradingEnvironment.init rowsA 100 (1/1000) (1/2000) (1/2) 0 "BTCUSDT" (1/20)).reset

/-- `envRT` after a BUY step and a SELL step: a complete round trip. -/
def envRT2 : TradingEnvironment := envRT.runSteps [1, 2]

/-- The same environment as `envRT` but never reset (fresh from the
constructor). -/
def envNoReset : TradingEnvironment :=
  TradingEnvironment.init rowsA 100 (1/1000) (1/2000) (1/2) 20 "BTCUSDT" (1/20)

/-- Flat-price environment used to exercise a HOLD step. -/
def envHold : TradingEnvironment :=
  (TradingEnvironment.init [⟨0, 100, 0⟩, ⟨1, 100, 0⟩, ⟨2, 100, 0⟩, ⟨3, 100, 0⟩]
    100 (1/1000) (1/2000) (1/10) 0 "BTCUSDT" (1/20)).reset

/-- An environment in the TERMINAL state (the terminal flag set). -/
def envDone : TradingEnvironment := { envRT with done := true }

/-- The invariant carried through every step for the non-negative-cash claim:
parameter bounds (penalty rate, fee rate, slippage at most 1, slippage
nonnegative), nonnegative close prices, nonnegative cash and position
quantities. -/
def EnvInv (env : TradingEnvironment) : Prop :=
  env.hold_penalty_rate ≤ 1 ∧
  env.exchange.fee_rate ≤ 1 ∧
  0 ≤ env.exchange.slippage ∧
  env.exchange.slippage ≤ 1 ∧
  (∀ r ∈ env.data, 0 ≤ r.close) ∧
  0 ≤ env.exchange.cash ∧
  (∀ s2, 0 ≤ (env.exchange.positions s2).quantity)

set_option maxRecDepth 1000000

/-! ### Ledger lemmas -/

theorem dust_pos : (0 : ℚ) < dust := by norm_num [dust]

theorem ExchangeMock.buy_frozen (ex : ExchangeMock) (s : String) (a p t : ℚ) :
    (ex.buy s a p t).1.initial_capital = ex.initial_capital ∧
    (ex.buy s a p t).1.fee_rate = ex.fee_rate ∧
    (ex.buy s a p t).1.slippage = ex.slippage := by
  unfold ExchangeMock.buy
  dsimp only
  split
  · exact ⟨rfl, rfl, rfl⟩
  · split
    · exact ⟨rfl, rfl, rfl⟩
    · exact ⟨rfl, rfl, rfl⟩

theorem ExchangeMock.sell_frozen (ex : ExchangeMock) (s : String) (q? : Option ℚ) (p t : ℚ) :
    (ex.sell s q? p t).1.initial_capital = ex.initial_capital ∧
    (ex.sell s q? p t).1.fee_rate = ex.fee_rate ∧
    (ex.sell s q? p t).1.slippage = ex.slippage := by
  unfold ExchangeMock.sell
  dsimp only
  split
  · exact ⟨rfl, rfl, rfl⟩
  · split
    · exact ⟨rfl, rfl, rfl⟩
    · exact ⟨rfl, rfl, rfl⟩

theorem ExchangeMock.buy_cash_nonneg (ex : ExchangeMock) (s : String) (a p t : ℚ)
    (h : 0 ≤ ex.cash) : 0 ≤ (ex.buy s a p t).1.cash := by
  unfold ExchangeMock.buy
  dsimp only
  split
  · exact h
  · split
    · exact h
    · dsimp only
      have h2 := min_le_right a ex.cash
      linarith

theorem ExchangeMock.sell_cash_nonneg (ex : ExchangeMock) (s : String) (q? : Option ℚ) (p t : ℚ)
    (h : 0 ≤ ex.cash) (hp : 0 ≤ p) (hsl : ex.slippage ≤ 1) (hf : ex.fee_rate ≤ 1) :
    0 ≤ (ex.sell s q? p t).1.cash := by
  unfold ExchangeMock.sell
  dsimp only
  split
  · exact h
  · split
    · exact h
    · rename_i hdust
      dsimp only
      push_neg at hdust
      have hq0 := le_trans (le_of_lt dust_pos) hdust
      have hnet := mul_nonneg (mul_nonneg hq0
        (mul_nonneg hp (by linarith : (0:ℚ) ≤ 1 - ex.slippage)))
        (by linarith : (0:ℚ) ≤ 1 - ex.fee_rate)
      linarith

theorem ExchangeMock.buy_qty_nonneg (ex : ExchangeMock) (s : String) (a p t : ℚ)
    (hq : ∀ s2, 0 ≤ (ex.positions s2).quantity)
    (hp : 0 ≤ p) (hf : ex.fee_rate ≤ 1) (hsl : 0 ≤ ex.slippage) :
    ∀ s2, 0 ≤ ((ex.buy s a p t).1.positions s2).quantity := by
  unfold ExchangeMock.buy
  dsimp only
  split
  · exact hq
  · split
    · exact hq
    · rename_i hmin
      intro s2
      dsimp only
      push_neg at hmin
      split
      · dsimp only
        have ha : (0:ℚ) ≤ min a ex.cash := le_trans (by norm_num) hmin
        have heff : (0:ℚ) ≤ min a ex.cash - min a ex.cash * ex.fee_rate := by nlinarith
        have hexec : (0:ℚ) ≤ p * (1 + ex.slippage) := mul_nonneg hp (by linarith)
        have hdiv := div_nonneg heff hexec
        have := hq s
        linarith
      · exact hq s2

theorem ExchangeMock.sell_qty_nonneg (ex : ExchangeMock) (s : String) (q? : Option ℚ) (p t : ℚ)
    (hq : ∀ s2, 0 ≤ (ex.positions s2).quantity) :
    ∀ s2, 0 ≤ ((ex.sell s q? p t).1.positions s2).quantity := by
  unfold ExchangeMock.sell
  dsimp only
  split
  · exact hq
  · split
    · exact hq
    · intro s2
      dsimp only
      split
      · split
        · norm_num
        · dsimp only
          exact sub_nonneg.mpr (min_le_right _ _)
      · exact hq s2


/-! ### C1 and C10: the buy operation -/

/-- C1: for every BUY that produces a fill (market price positive, slippage
nonnegative), writing `a` for the usd amount clamped to available cash, the
cash after the call is the cash before minus `a`, and `a` equals
`fee + quantity * execution_price` exactly. -/
theorem buy_value_conservation (ex : ExchangeMock) (symbol : String)
    (usd_amount market_price timestamp : ℚ)
    (hprice : 0 < market_price) (hslip : 0 ≤ ex.slippage)
    (hfill : (ex.buy symbol usd_amount market_price timestamp).2.isSome = true) :
    (ex.buy symbol usd_amount market_price timestamp).1.cash
        = ex.cash - min usd_amount ex.cash ∧
    (ex.buy symbol usd_amount market_price timestamp).2.map
        (fun fill => fill.fee + fill.quantity * fill.price)
      = some (min usd_amount ex.cash) := by
  unfold ExchangeMock.buy at hfill ⊢
  by_cases h1 : usd_amount ≤ 0
  · rw [if_pos h1] at hfill
    exact Bool.noConfusion hfill
  · simp only [if_neg h1] at hfill ⊢
    by_cases h2 : min usd_amount ex.cash < 0.01
    · simp only [if_pos h2] at hfill
      exact Bool.noConfusion hfill
    · simp only [if_neg h2]
      refine ⟨trivial, ?_⟩
      simp only [Option.map_some', Option.some.injEq]
      have hE : market_price * (1 + ex.slippage) ≠ 0 :=
        ne_of_gt (mul_pos hprice (by linarith))
      rw [div_mul_cancel₀ _ hE]
      ring

/-- Witness for C1: the Scenario A BUY (50 USD at price 100). -/
theorem buy_value_conservation_witness :
    ((0:ℚ) < 100 ∧ (0:ℚ) ≤ exA.slippage ∧
      (exA.buy "BTCUSDT" 50 100 0).2.isSome = true) ∧
    (exA.buy "BTCUSDT" 50 100 0).1.cash = exA.cash - min 50 exA.cash ∧
    (exA.buy "BTCUSDT" 50 100 0).2.map (fun fill => fill.fee + fill.quantity * fill.price)
      = some (min 50 exA.cash) := by
  have h := buy_value_conservation exA "BTCUSDT" 50 100 0 (by norm_num)
    (by norm_num [exA, ExchangeMock.init])
    (by norm_num [exA, ExchangeMock.init, ExchangeMock.buy, min_def])
  refine ⟨⟨by norm_num, by norm_num [exA, ExchangeMock.init],
    by norm_num [exA, ExchangeMock.init, ExchangeMock.buy, min_def]⟩, h.1, h.2⟩

/-- C10: a BUY whose usd amount is nonpositive, or whose clamp to available
cash is below the 0.01 minimum, returns no fill and leaves the ledger state
(cash, positions, trade history, realized P&L) entirely unchanged. -/
theorem buy_total_no_fill (ex : ExchangeMock) (s : String) (a p t : ℚ)
    (h : a ≤ 0 ∨ min a ex.cash < 0.01) :
    ex.buy s a p t = (ex, none) := by
  unfold ExchangeMock.buy
  rcases h with h | h
  · rw [if_pos h]
  · by_cases h1 : a ≤ 0
    · rw [if_pos h1]
    · rw [if_neg h1]
      simp only [if_pos h]

/-- Witness for C10: a BUY of -5 USD is a no-op on the Scenario A ledger. -/
theorem buy_total_no_fill_witness :
    ((-5 : ℚ) ≤ 0 ∨ min (-5 : ℚ) exA.cash < 0.01) ∧
    exA.buy "BTCUSDT" (-5) 100 0 = (exA, none) :=
  ⟨Or.inl (by norm_num), buy_total_no_fill exA "BTCUSDT" (-5) 100 0 (Or.inl (by norm_num))⟩

/-! ### C6: position invariants -/

theorem ExchangeMock.applyOp_frozen (ex : ExchangeMock) (op : LedgerOp) :
    (ex.applyOp op).fee_rate = ex.fee_rate ∧ (ex.applyOp op).slippage = ex.slippage := by
  cases op with
  | buyOp s a p t =>
    exact ⟨(ExchangeMock.buy_frozen ex s a p t).2.1, (ExchangeMock.buy_frozen ex s a p t).2.2⟩
  | sellOp s q p t =>
    exact ⟨(ExchangeMock.sell_frozen ex s q p t).2.1, (ExchangeMock.sell_frozen ex s q p t).2.2⟩

theorem ExchangeMock.applyOp_qty_nonneg (ex : ExchangeMock) (op : LedgerOp)
    (hq : ∀ s2, 0 ≤ (ex.positions s2).quantity)
    (hp : 0 ≤ op.marketPrice) (hf : ex.fee_rate ≤ 1) (hsl : 0 ≤ ex.slippage) :
    ∀ s2, 0 ≤ ((ex.applyOp op).positions s2).quantity := by
  cases op with
  | buyOp s a p t => exact ExchangeMock.buy_qty_nonneg ex s a p t hq hp hf hsl
  | sellOp s q p t => exact ExchangeMock.sell_qty_nonneg ex s q p t hq

theorem ExchangeMock.runOps_qty_nonneg (ops : List LedgerOp) :
    ∀ ex : ExchangeMock, (∀ op ∈ ops, 0 ≤ op.marketPrice) →
    ex.fee_rate ≤ 1 → 0 ≤ ex.slippage →
    (∀ s2, 0 ≤ (ex.positions s2).quantity) →
    ∀ s2, 0 ≤ ((ex.runOps ops).positions s2).quantity := by
  induction ops with
  | nil => intro ex _ _ _ hq; exact hq
  | cons op rest ih =>
    intro ex hops hf hsl hq
    have hfr := ExchangeMock.applyOp_frozen ex op
    exact ih (ex.applyOp op) (fun o ho => hops o (List.mem_cons_of_mem _ ho))
      (by rw [hfr.1]; exact hf) (by rw [hfr.2]; exact hsl)
      (ExchangeMock.applyOp_qty_nonneg ex op hq (hops op (List.mem_cons_self _ _)) hf hsl)

theorem ExchangeMock.sell_dust_reset (ex : ExchangeMock) (s : String) (q? : Option ℚ)
    (p t : ℚ) (ex1 : ExchangeMock) (fill : Fill)
    (h : ex.sell s q? p t = (ex1, some fill))
    (hd : (ex1.positions s).quantity < dust) :
    (ex1.positions s).avg_entry_price = 0 ∧ (ex1.positions s).total_invested = 0 := by
  unfold ExchangeMock.sell at h
  dsimp only at h
  split at h
  · exact Option.noConfusion (congrArg Prod.snd h)
  · split at h
    · exact Option.noConfusion (congrArg Prod.snd h)
    · have hex := congrArg Prod.fst h
      dsimp only at hex
      subst hex
      dsimp only at hd ⊢
      rw [if_pos rfl] at hd ⊢
      split
      · exact ⟨rfl, rfl⟩
      · rename_i hnew
        rw [if_neg hnew] at hd
        exact absurd hd hnew

/-- C6 (amended): in every ledger state reachable by buy/sell sequences with
positive market prices (fee rate at most 1, slippage nonnegative), every
position has nonnegative quantity; and whenever a SELL fill leaves the sold
position with quantity below the dust threshold, its avg_entry_price and
total_invested are reset to 0.  (As stated the claim is false: a BUY can
create a position with positive quantity below the dust threshold and
nonzero avg_entry_price / total_invested — see the counterexample.) -/
theorem positions_invariant (ic fr sl : ℚ) (hf : fr ≤ 1) (hsl : 0 ≤ sl)
    (ops : List LedgerOp) (hops : ∀ op ∈ ops, 0 < op.marketPrice) :
    (∀ s2, 0 ≤ (((ExchangeMock.init ic fr sl).runOps ops).positions s2).quantity) ∧
    (∀ (ex ex1 : ExchangeMock) (s : String) (q? : Option ℚ) (p t : ℚ) (fill : Fill),
      ex.sell s q? p t = (ex1, some fill) →
      (ex1.positions s).quantity < dust →
      (ex1.positions s).avg_entry_price = 0 ∧ (ex1.positions s).total_invested = 0) := by
  constructor
  · exact ExchangeMock.runOps_qty_nonneg ops (ExchangeMock.init ic fr sl)
      (fun op ho => le_of_lt (hops op ho)) hf hsl (fun s2 => le_refl 0)
  · intro ex ex1 s q? p t fill h hd
    exact ExchangeMock.sell_dust_reset ex s q? p t ex1 fill h hd

/-- Counterexample to C6 as stated: buying 1 USD at market price `10^12`
(a positive price) reaches a state whose position has quantity strictly
between 0 and the dust threshold while avg_entry_price and total_invested
are nonzero. -/
theorem positions_invariant_counterexample :
    (0:ℚ) < 10 ^ 12 ∧
    0 < (((ExchangeMock.init 100 (1/1000) (1/2000)).runOps
        [LedgerOp.buyOp "BTCUSDT" 1 (10 ^ 12) 0]).positions "BTCUSDT").quantity ∧
    (((ExchangeMock.init 100 (1/1000) (1/2000)).runOps
        [LedgerOp.buyOp "BTCUSDT" 1 (10 ^ 12) 0]).positions "BTCUSDT").quantity < dust ∧
    (((ExchangeMock.init 100 (1/1000) (1/2000)).runOps
        [LedgerOp.buyOp "BTCUSDT" 1 (10 ^ 12) 0]).positions "BTCUSDT").avg_entry_price ≠ 0 ∧
    (((ExchangeMock.init 100 (1/1000) (1/2000)).runOps
        [LedgerOp.buyOp "BTCUSDT" 1 (10 ^ 12) 0]).positions "BTCUSDT").total_invested ≠ 0 := by
  norm_num [ExchangeMock.init, ExchangeMock.runOps, ExchangeMock.applyOp, ExchangeMock.buy,
    min_def, dust]

/-- Witness for the amended C6 at a concrete buy sequence. -/
theorem positions_invariant_witness :
    ((1/1000 : ℚ) ≤ 1 ∧ (0:ℚ) ≤ 1/2000 ∧
      (∀ op ∈ [LedgerOp.buyOp "BTCUSDT" 50 100 0], 0 < op.marketPrice)) ∧
    0 ≤ (((ExchangeMock.init 100 (1/1000) (1/2000)).runOps
        [LedgerOp.buyOp "BTCUSDT" 50 100 0]).positions "BTCUSDT").quantity := by
  have hops : ∀ op ∈ [LedgerOp.buyOp "BTCUSDT" 50 100 0], 0 < op.marketPrice := by
    intro op hop
    simp only [List.mem_singleton] at hop
    subst hop
    norm_num [LedgerOp.marketPrice]
  exact ⟨⟨by norm_num, by norm_num, hops⟩,
    (positions_invariant 100 (1/1000) (1/2000) (by norm_num) (by norm_num)
      [LedgerOp.buyOp "BTCUSDT" 50 100 0] hops).1 "BTCUSDT"⟩

/-! ### C7: Scenario A round trip -/

/-- C7: with initial capital 100, fee rate 0.001, slippage 0.0005: a BUY of
50 USD at market price 100 fills at execution price 100.05 with fee 0.05 and
quantity close to 0.4992503748, leaving cash 50; selling the whole position at
market price 110 fills at execution price 109.945 with gross close to
54.89008, fee close to 0.054890, net close to 54.83519, realized P&L close to
4.88519 and cash close to 104.83519. -/
theorem scenario_a_round_trip :
    buyA.2.isSome = true ∧
    buyFillA.price = 100.05 ∧
    buyFillA.fee = 0.05 ∧
    |buyFillA.quantity - 0.4992503748| < 1/10^9 ∧
    buyA.1.cash = 50 ∧
    sellA.2.isSome = true ∧
    sellFillA.price = 109.945 ∧
    |sellFillA.quantity * sellFillA.price - 54.89008| < 1/10^4 ∧
    |sellFillA.fee - 0.054890| < 1/10^4 ∧
    |sellFillA.total_cost - 54.83519| < 1/10^4 ∧
    |sellA.1.realized_pnl - 4.88519| < 1/10^4 ∧
    |sellA.1.cash - 104.83519| < 1/10^4 := by
  norm_num [buyFillA, sellFillA, buyA, sellA, exA, ExchangeMock.init, ExchangeMock.buy,
    ExchangeMock.sell, Position.is_open, dust, min_def, Option.getD, abs_lt]

/-! ### Environment lemmas -/

theorem TradingEnvironment.applyAction_frozen (env : TradingEnvironment) (a : ℕ)
    (price timestamp prev_value : ℚ) :
    (env.applyAction a price timestamp prev_value).1.data = env.data ∧
    (env.applyAction a price timestamp prev_value).1.initial_capital = env.initial_capital ∧
    (env.applyAction a price timestamp prev_value).1.hold_penalty_rate = env.hold_penalty_rate ∧
    (env.applyAction a price timestamp prev_value).1.score = env.score ∧
    (env.applyAction a price timestamp prev_value).1.exchange.fee_rate = env.exchange.fee_rate ∧
    (env.applyAction a price timestamp prev_value).1.exchange.slippage = env.exchange.slippage := by
  unfold TradingEnvironment.applyAction
  dsimp only
  split
  · split
    · exact ⟨rfl, rfl, rfl, rfl, rfl, rfl⟩
    · exact ⟨rfl, rfl, rfl, rfl, rfl, rfl⟩
  · split
    · exact ⟨rfl, rfl, rfl, rfl,
        (ExchangeMock.buy_frozen _ _ _ _ _).2.1, (ExchangeMock.buy_frozen _ _ _ _ _).2.2⟩
    · split
      · split
        · exact ⟨rfl, rfl, rfl, rfl,
            (ExchangeMock.sell_frozen _ _ _ _ _).2.1, (ExchangeMock.sell_frozen _ _ _ _ _).2.2⟩
        · exact ⟨rfl, rfl, rfl, rfl,
            (ExchangeMock.sell_frozen _ _ _ _ _).2.1, (ExchangeMock.sell_frozen _ _ _ _ _).2.2⟩
      · exact ⟨rfl, rfl, rfl, rfl, rfl, rfl⟩

theorem TradingEnvironment.applyAction_cash_inv (env : TradingEnvironment) (a : ℕ)
    (price timestamp prev_value : ℚ)
    (hc : 0 ≤ env.exchange.cash)
    (hq : ∀ s2, 0 ≤ (env.exchange.positions s2).quantity)
    (hp : 0 ≤ price)
    (hpen : env.hold_penalty_rate ≤ 1)
    (hf : env.exchange.fee_rate ≤ 1)
    (hsl0 : 0 ≤ env.exchange.slippage) (hsl1 : env.exchange.slippage ≤ 1) :
    0 ≤ (env.applyAction a price timestamp prev_value).1.exchange.cash ∧
    ∀ s2, 0 ≤ ((env.applyAction a price timestamp prev_value).1.exchange.positions s2).quantity := by
  unfold TradingEnvironment.applyAction
  dsimp only
  split
  · split
    · constructor
      · dsimp only
        nlinarith [mul_nonneg hc (sub_nonneg.mpr hpen)]
      · exact hq
    · exact ⟨hc, hq⟩
  · split
    · exact ⟨ExchangeMock.buy_cash_nonneg _ _ _ _ _ hc,
        ExchangeMock.buy_qty_nonneg _ _ _ _ _ hq hp hf hsl0⟩
    · split
      · split
        · exact ⟨ExchangeMock.sell_cash_nonneg _ _ _ _ _ hc hp hsl1 hf,
            ExchangeMock.sell_qty_nonneg _ _ _ _ _ hq⟩
        · exact ⟨ExchangeMock.sell_cash_nonneg _ _ _ _ _ hc hp hsl1 hf,
            ExchangeMock.sell_qty_nonneg _ _ _ _ _ hq⟩
      · exact ⟨hc, hq⟩

theorem TradingEnvironment.stepCore_exchange (env : TradingEnvironment) (a : ℕ) (row : Row) :
    (env.stepCore a row).1.exchange
      = (env.applyAction a row.close row.timestamp
          (env.exchange.get_portfolio_value env.symbol row.close)).1.exchange := rfl

theorem TradingEnvironment.stepCore_data (env : TradingEnvironment) (a : ℕ) (row : Row) :
    (env.stepCore a row).1.data
      = (env.applyAction a row.close row.timestamp
          (env.exchange.get_portfolio_value env.symbol row.close)).1.data := rfl

theorem TradingEnvironment.stepCore_hold_penalty_rate (env : TradingEnvironment) (a : ℕ) (row : Row) :
    (env.stepCore a row).1.hold_penalty_rate
      = (env.applyAction a row.close row.timestamp
          (env.exchange.get_portfolio_value env.symbol row.close)).1.hold_penalty_rate := rfl

theorem TradingEnvironment.stepM_inv (env : TradingEnvironment) (a : ℕ) (h : EnvInv env) :
    EnvInv (env.stepM a).1 := by
  unfold TradingEnvironment.stepM
  split
  · exact h
  · split
    · exact h
    · rename_i row hget
      obtain ⟨hhp, hfr, hsl0, hsl1, hdata, hc, hq⟩ := h
      have hp : 0 ≤ row.close := hdata row (List.get?_mem hget)
      have hfroz := TradingEnvironment.applyAction_frozen env a row.close row.timestamp
        (env.exchange.get_portfolio_value env.symbol row.close)
      have hinv := TradingEnvironment.applyAction_cash_inv env a row.close row.timestamp
        (env.exchange.get_portfolio_value env.symbol row.close) hc hq hp hhp hfr hsl0 hsl1
      refine ⟨?_, ?_, ?_, ?_, ?_, ?_, ?_⟩
      · rw [TradingEnvironment.stepCore_hold_penalty_rate, hfroz.2.2.1]; exact hhp
      · rw [TradingEnvironment.stepCore_exchange, hfroz.2.2.2.2.1]; exact hfr
      · rw [TradingEnvironment.stepCore_exchange, hfroz.2.2.2.2.2]; exact hsl0
      · rw [TradingEnvironment.stepCore_exchange, hfroz.2.2.2.2.2]; exact hsl1
      · rw [TradingEnvironment.stepCore_data, hfroz.1]; exact hdata
      · rw [TradingEnvironment.stepCore_exchange]; exact hinv.1
      · rw [TradingEnvironment.stepCore_exchange]; exact hinv.2

theorem TradingEnvironment.runSteps_inv (actions : List ℕ) :
    ∀ env : TradingEnvironment, EnvInv env → EnvInv (env.runSteps actions) := by
  induction actions with
  | nil => exact fun env h => h
  | cons a rest ih =>
    intro env h
    unfold TradingEnvironment.runSteps
    have hstep := TradingEnvironment.stepM_inv env a h
    rcases hm : env.stepM a with ⟨env1, res⟩
    rw [hm] at hstep
    cases res with
    | error e => exact hstep
    | ok r => exact ih env1 hstep

/-! ### C2: cash is never negative -/

/-- C2: for every action sequence run after reset() on an environment whose
fee rate, slippage, hold-penalty rate and risk-per-trade fraction lie in
[0, 1], whose initial capital is nonnegative, and whose close prices are
positive, the ledger's cash is never negative (the state after any prefix of
the sequence is an instance of this statement). -/
theorem cash_never_negative (data : List Row) (ic fr sl rp hp : ℚ) (ws : ℕ) (sym : String)
    (hic : 0 ≤ ic)
    (hfr0 : 0 ≤ fr) (hfr1 : fr ≤ 1)
    (hsl0 : 0 ≤ sl) (hsl1 : sl ≤ 1)
    (hhp0 : 0 ≤ hp) (hhp1 : hp ≤ 1)
    (hrp0 : 0 ≤ rp) (hrp1 : rp ≤ 1)
    (hdata : ∀ r ∈ data, 0 < r.close)
    (actions : List ℕ) :
    0 ≤ (((TradingEnvironment.init data ic fr sl rp ws sym hp).reset).runSteps
        actions).exchange.cash := by
  have hinv : EnvInv ((TradingEnvironment.init data ic fr sl rp ws sym hp).reset) :=
    ⟨hhp1, hfr1, hsl0, hsl1, fun r hr => le_of_lt (hdata r hr), hic, fun s2 => le_refl 0⟩
  exact (TradingEnvironment.runSteps_inv actions _ hinv).2.2.2.2.2.1

/-- Witness for C2: a concrete HOLD/BUY/SELL/HOLD run over `rowsA`. -/
theorem cash_never_negative_witness :
    ((0:ℚ) ≤ 100 ∧ (0:ℚ) ≤ 1/1000 ∧ (1/1000:ℚ) ≤ 1 ∧ (0:ℚ) ≤ 1/2000 ∧ (1/2000:ℚ) ≤ 1 ∧
      (0:ℚ) ≤ 1/20 ∧ (1/20:ℚ) ≤ 1 ∧ (0:ℚ) ≤ 1/2 ∧ (1/2:ℚ) ≤ 1 ∧
      (∀ r ∈ rowsA, 0 < r.close)) ∧
    0 ≤ (((TradingEnvironment.init rowsA 100 (1/1000) (1/2000) (1/2) 0 "BTCUSDT"
        (1/20)).reset).runSteps [0, 1, 2, 0]).exchange.cash := by
  have hdata : ∀ r ∈ rowsA, 0 < r.close := by
    intro r hr
    simp only [rowsA, List.mem_cons, List.not_mem_nil, or_false] at hr
    rcases hr with h | h | h | h <;> subst h <;> norm_num
  exact ⟨⟨by norm_num, by norm_num, by norm_num, by norm_num, by norm_num, by norm_num,
      by norm_num, by norm_num, by norm_num, hdata⟩,
    cash_never_negative rowsA 100 (1/1000) (1/2000) (1/2) (1/20) 0 "BTCUSDT"
      (by norm_num) (by norm_num) (by norm_num) (by norm_num) (by norm_num) (by norm_num)
      (by norm_num) (by norm_num) (by norm_num) hdata [0, 1, 2, 0]⟩

/-! ### C5: the terminal guard -/

/-- C5 (amended): calling step() on an engine whose terminal flag is set
signals the invalid-state error and returns the state entirely unchanged
(trajectory, step log and ledger included).  (The claim's other half is
false: an engine that has never been reset has the terminal flag clear and
step() succeeds — see the counterexample.) -/
theorem terminal_guard (env : TradingEnvironment) (a : ℕ) (h : env.done = true) :
    env.stepM a = (env, Except.error StepError.environmentDone) := by
  unfold TradingEnvironment.stepM
  rw [if_pos h]

/-- Witness for C5: a terminal environment rejects a step unchanged. -/
theorem terminal_guard_witness :
    envDone.done = true ∧
    envDone.stepM 0 = (envDone, Except.error StepError.environmentDone) :=
  ⟨rfl, terminal_guard envDone 0 rfl⟩

/-- Counterexample to C5 as stated: a never-reset engine (fresh from the
constructor) has the terminal flag clear, and step() returns a normal result
instead of signalling an invalid-state error. -/
theorem uninitialized_step_no_error :
    envNoReset.done = false ∧
    (envNoReset.stepM 0).2 = Except.ok ⟨-1/20, false, none, 5⟩ := by
  constructor
  · rfl
  · norm_num [envNoReset, rowsA, TradingEnvironment.init, TradingEnvironment.stepM,
      TradingEnvironment.stepCore, TradingEnvironment.applyAction, TradingEnvironment.reset,
      ExchangeMock.init, ExchangeMock.reset, ExchangeMock.get_portfolio_value,
      Position.is_open, dust, HOLD, BUY, SELL, List.get?]
    rfl

/-! ### C4: the score system -/

theorem TradingEnvironment.stepM_score_cases (env : TradingEnvironment) (a : ℕ) :
    (env.stepM a).1.score = env.score ∨
    (0 ≤ (env.stepM a).1.score ∧ (env.stepM a).1.score ≤ 1000) := by
  unfold TradingEnvironment.stepM
  split
  · exact Or.inl rfl
  · split
    · exact Or.inl rfl
    · rename_i row hget
      right
      obtain ⟨x, hx⟩ : ∃ x, ((env.stepCore a row).1).score = max 0 (min 1000 x) := ⟨_, rfl⟩
      rw [hx]
      exact ⟨le_max_left 0 _, max_le (by norm_num) (min_le_left _ _)⟩

theorem TradingEnvironment.runSteps_score_bound (actions : List ℕ) :
    ∀ env : TradingEnvironment, 0 ≤ env.score → env.score ≤ 1000 →
    0 ≤ (env.runSteps actions).score ∧ (env.runSteps actions).score ≤ 1000 := by
  induction actions with
  | nil => exact fun env h0 h1 => ⟨h0, h1⟩
  | cons a rest ih =>
    intro env h0 h1
    unfold TradingEnvironment.runSteps
    have hsc := TradingEnvironment.stepM_score_cases env a
    rcases hm : env.stepM a with ⟨env1, res⟩
    rw [hm] at hsc
    have henv1 : 0 ≤ env1.score ∧ env1.score ≤ 1000 := by
      rcases hsc with h | h
      · exact ⟨h ▸ h0, h ▸ h1⟩
      · exact h
    cases res with
    | error e => exact henv1
    | ok r => exact ih env1 henv1.1 henv1.2

theorem TradingEnvironment.stepM_score_update (env : TradingEnvironment) (a : ℕ)
    (env1 : TradingEnvironment) (res : StepResult)
    (h : env.stepM a = (env1, Except.ok res)) :
    env1.score = max 0 (min 1000
      ((if 0 < res.reward then env.score + res.reward * 100
        else if res.reward < 0 then env.score + res.reward * 150
        else env.score)
       - (if 0 < res.hold_penalty then res.hold_penalty / env.initial_capital * 50 else 0))) := by
  unfold TradingEnvironment.stepM at h
  split at h
  · exact Except.noConfusion (congrArg Prod.snd h)
  · split at h
    · exact Except.noConfusion (congrArg Prod.snd h)
    · rename_i row hget
      simp only [TradingEnvironment.stepCore] at h
      have hfroz := TradingEnvironment.applyAction_frozen env a row.close row.timestamp
        (env.exchange.get_portfolio_value env.symbol row.close)
      rw [Prod.mk.injEq] at h
      obtain ⟨henv1, hres⟩ := h
      rw [Except.ok.injEq] at hres
      subst henv1
      subst hres
      dsimp only
      rw [hfroz.2.2.2.1, hfroz.2.1]
      by_cases hH : (0:ℚ) <
          (env.applyAction a row.close row.timestamp
            (env.exchange.get_portfolio_value env.symbol row.close)).2.2
      · rw [if_pos hH, if_pos hH]
      · rw [if_neg hH, if_neg hH, sub_zero]

/-- C4: after reset() the score is 1000; after every step of any action
sequence the score lies in [0, 1000]; and each successful step updates the
score by adding reward*100 for positive rewards, reward*150 for negative
rewards, subtracting (penalty/initial_capital)*50 when a hold penalty was
applied, then clamping to [0, 1000]. -/
theorem score_system (env : TradingEnvironment) :
    (env.reset).score = 1000 ∧
    (∀ actions : List ℕ,
      0 ≤ ((env.reset).runSteps actions).score ∧
      ((env.reset).runSteps actions).score ≤ 1000) ∧
    (∀ (a : ℕ) (env1 : TradingEnvironment) (res : StepResult),
      env.stepM a = (env1, Except.ok res) →
      env1.score = max 0 (min 1000
        ((if 0 < res.reward then env.score + res.reward * 100
          else if res.reward < 0 then env.score + res.reward * 150
          else env.score)
         - (if 0 < res.hold_penalty then res.hold_penalty / env.initial_capital * 50
            else 0)))) := by
  refine ⟨rfl, ?_, ?_⟩
  · intro actions
    exact TradingEnvironment.runSteps_score_bound actions env.reset
      (by show (0:ℚ) ≤ 1000; norm_num) (by show (1000:ℚ) ≤ 1000; norm_num)
  · exact fun a env1 res h => TradingEnvironment.stepM_score_update env a env1 res h

/-- Witness for C4: a concrete HOLD step (penalty 5, reward -1/20) lands the
score at the value the update formula prescribes. -/
theorem score_system_witness :
    envHold.stepM 0 = ((envHold.stepM 0).1, Except.ok ⟨-1/20, false, none, 5⟩) ∧
    (envHold.stepM 0).1.score = max 0 (min 1000
      ((if (0:ℚ) < (-1/20 : ℚ) then envHold.score + (-1/20 : ℚ) * 100
        else if (-1/20 : ℚ) < 0 then envHold.score + (-1/20 : ℚ) * 150
        else envHold.score)
       - (if (0:ℚ) < (5:ℚ) then (5:ℚ) / envHold.initial_capital * 50 else 0))) := by
  have h : envHold.stepM 0 = ((envHold.stepM 0).1, Except.ok ⟨-1/20, false, none, 5⟩) := by
    refine Prod.ext rfl ?_
    norm_num [envHold, TradingEnvironment.init, TradingEnvironment.stepM,
      TradingEnvironment.stepCore, TradingEnvironment.applyAction, TradingEnvironment.reset,
      ExchangeMock.init, ExchangeMock.reset, ExchangeMock.get_portfolio_value,
      Position.is_open, dust, HOLD, BUY, SELL, List.get?]
    rfl
  exact ⟨h, (score_system envHold).2.2 0 (envHold.stepM 0).1 ⟨-1/20, false, none, 5⟩ h⟩

/-! ### C3: the recorded per-trade P&L -/

/-- Every SELL fill satisfies `total_cost - quantity * price = -fee`: the
expression the environment appends to `trade_pnls` is always the negated
sell fee, not the realized P&L of the fill. -/
theorem ExchangeMock.sell_fill_neg_fee (ex : ExchangeMock) (s : String) (q? : Option ℚ)
    (p t : ℚ) (ex1 : ExchangeMock) (fill : Fill)
    (h : ex.sell s q? p t = (ex1, some fill)) :
    fill.total_cost - fill.quantity * fill.price = -fill.fee := by
  unfold ExchangeMock.sell at h
  dsimp only at h
  split at h
  · exact Option.noConfusion (congrArg Prod.snd h)
  · split at h
    · exact Option.noConfusion (congrArg Prod.snd h)
    · have hf := congrArg Prod.snd h
      dsimp only at hf
      rw [Option.some.injEq] at hf
      subst hf
      dsimp only
      ring

/-- C3 evaluated at the failing input (the Scenario A round trip driven
through the environment): the SELL step appends `-fee = -7322337/133400000
≈ -0.0549` to `trade_pnls` while the ledger's cumulative realized P&L
receives `651684663/133400000 ≈ 4.885`; the recorded value is not the
realized P&L of the fill. -/
theorem recorded_pnl_diverges :
    envRT2.trade_pnls = [-(7322337/133400000 : ℚ)] ∧
    envRT2.exchange.realized_pnl = (651684663/133400000 : ℚ) ∧
    ¬ envRT2.trade_pnls = [envRT2.exchange.realized_pnl] := by
  norm_num [envRT2, envRT, rowsA, TradingEnvironment.runSteps, TradingEnvironment.stepM,
    TradingEnvironment.stepCore, TradingEnvironment.applyAction, TradingEnvironment.reset,
    TradingEnvironment.init, ExchangeMock.init, ExchangeMock.reset, ExchangeMock.buy,
    ExchangeMock.sell, ExchangeMock.get_portfolio_value, Position.is_open, dust,
    List.get?, min_def, HOLD, BUY, SELL]

/-! ### C8: maximum drawdown -/

theorem ddLoop_bound (l : List ℚ) : ∀ (i : ℕ) (peak max_dd : ℚ) (ds md cds : ℕ),
    (∀ v ∈ l, 0 ≤ v) → 0 ≤ peak → 0 ≤ max_dd → max_dd ≤ 1 →
    0 ≤ (ddLoop i peak max_dd ds md cds l).1 ∧
    (ddLoop i peak max_dd ds md cds l).1 ≤ 100 := by
  induction l with
  | nil =>
    intro i peak max_dd ds md cds _ _ h0 h1
    constructor
    · show 0 ≤ max_dd * 100
      nlinarith
    · show max_dd * 100 ≤ 100
      nlinarith
  | cons v rest ih =>
    intro i peak max_dd ds md cds hl hp h0 h1
    have hv : 0 ≤ v := hl v (List.mem_cons_self _ _)
    have hrest : ∀ w ∈ rest, 0 ≤ w := fun w hw => hl w (List.mem_cons_of_mem _ hw)
    unfold ddLoop
    dsimp only
    split
    · exact ih _ _ _ _ _ _ hrest hv h0 h1
    · rename_i hlt
      push_neg at hlt
      have hppos : 0 < peak := lt_of_le_of_lt hv hlt
      split
      · exact ih _ _ _ _ _ _ hrest hp (div_nonneg (by linarith) hppos.le)
          (by rw [div_le_one hppos]; linarith)
      · exact ih _ _ _ _ _ _ hrest hp h0 h1

/-- C8: the drawdown of the trajectory [100, 120, 90, 110] is 25 percent with
duration 1 step; a trajectory of fewer than 2 points yields (0, 0); and for
every trajectory of nonnegative values the drawdown percentage lies in
[0, 100]. -/
theorem max_drawdown_spec :
    MetricsEngine.max_drawdown [100, 120, 90, 110] = (25, 1) ∧
    (∀ ec : List ℚ, ec.length < 2 → MetricsEngine.max_drawdown ec = (0, 0)) ∧
    (∀ ec : List ℚ, (∀ v ∈ ec, 0 ≤ v) →
      0 ≤ (MetricsEngine.max_drawdown ec).1 ∧ (MetricsEngine.max_drawdown ec).1 ≤ 100) := by
  refine ⟨?_, ?_, ?_⟩
  · norm_num [MetricsEngine.max_drawdown, ddLoop]
  · intro ec h
    match ec with
    | [] => rfl
    | [x] => rfl
    | x :: y :: rest => exact absurd h (by simp)
  · intro ec hv
    match ec with
    | [] => exact ⟨le_refl 0, by norm_num [MetricsEngine.max_drawdown]⟩
    | [x] => exact ⟨le_refl 0, by norm_num [MetricsEngine.max_drawdown]⟩
    | v0 :: v1 :: rest =>
      exact ddLoop_bound (v0 :: v1 :: rest) 0 v0 0 0 0 0 hv
        (hv v0 (List.mem_cons_self _ _)) (le_refl 0) (by norm_num)

/-- Witness for C8: the bound instantiated on [100, 120, 90, 110]. -/
theorem max_drawdown_spec_witness :
    (∀ v ∈ [(100:ℚ), 120, 90, 110], 0 ≤ v) ∧
    0 ≤ (MetricsEngine.max_drawdown [100, 120, 90, 110]).1 ∧
    (MetricsEngine.max_drawdown [100, 120, 90, 110]).1 ≤ 100 := by
  have hv : ∀ v ∈ [(100:ℚ), 120, 90, 110], 0 ≤ v := by
    intro v hmem
    simp only [List.mem_cons, List.not_mem_nil, or_false] at hmem
    rcases hmem with h | h | h | h <;> subst h <;> norm_num
  exact ⟨hv, max_drawdown_spec.2.2 [100, 120, 90, 110] hv⟩

/-! ### C9: trade statistics -/

/-- C9: for a nonempty P&L list, the statistics split the list into wins
(> 0) and losses (≤ 0), the win rate is wins/total*100, the profit factor is
gross profit over absolute gross loss when the latter is positive and ⊤
(positive infinity) when there are wins and zero realized gross loss; with
no trades at all the profit factor is 0; and [5, 3, 2] yields profit factor
⊤ and win rate 100. -/
theorem analyze_trades_spec :
    (∀ pnls : List ℚ, pnls ≠ [] →
      (MetricsEngine.analyze_trades pnls).winning_trades
          = (pnls.filter (fun p => 0 < p)).length ∧
      (MetricsEngine.analyze_trades pnls).losing_trades
          = (pnls.filter (fun p => p ≤ 0)).length ∧
      (MetricsEngine.analyze_trades pnls).win_rate
          = ((pnls.filter (fun p => 0 < p)).length : ℚ) / (pnls.length : ℚ) * 100 ∧
      (0 < |(pnls.filter (fun p => p ≤ 0)).sum| →
        (MetricsEngine.analyze_trades pnls).profit_factor
          = (((pnls.filter (fun p => 0 < p)).sum
              / |(pnls.filter (fun p => p ≤ 0)).sum| : ℚ) : WithTop ℚ)) ∧
      ((pnls.filter (fun p => 0 < p)) ≠ [] →
        (pnls.filter (fun p => p ≤ 0)).sum = 0 →
        (MetricsEngine.analyze_trades pnls).profit_factor = ⊤)) ∧
    (MetricsEngine.analyze_trades []).profit_factor = ((0:ℚ) : WithTop ℚ) ∧
    (MetricsEngine.analyze_trades [5, 3, 2]).profit_factor = ⊤ ∧
    (MetricsEngine.analyze_trades [5, 3, 2]).win_rate = 100 := by
  refine ⟨?_, ?_, ?_, ?_⟩
  · intro pnls hne
    unfold MetricsEngine.analyze_trades
    rw [if_neg hne]
    dsimp only
    refine ⟨rfl, rfl, rfl, ?_, ?_⟩
    · intro hgl
      rw [if_pos hgl]
    · intro _ hsum
      have hno : ¬ (0 < |(pnls.filter (fun p => p ≤ 0)).sum|) := by
        rw [hsum]
        norm_num
      rw [if_neg hno]
  · rfl
  · unfold MetricsEngine.analyze_trades
    rw [if_neg (List.cons_ne_nil _ _)]
    norm_num [List.filter]
  · unfold MetricsEngine.analyze_trades
    rw [if_neg (List.cons_ne_nil _ _)]
    norm_num [List.filter]

/-- Witness for C9: the nonempty-list clause instantiated at [5, 3, 2]. -/
theorem analyze_trades_spec_witness :
    ([(5:ℚ), 3, 2] ≠ []) ∧
    (MetricsEngine.analyze_trades [5, 3, 2]).win_rate
      = ((([(5:ℚ), 3, 2].filter (fun p => 0 < p)).length : ℚ)
          / (([(5:ℚ), 3, 2] : List ℚ).length : ℚ)) * 100 := by
  have h := analyze_trades_spec.1 [5, 3, 2] (List.cons_ne_nil _ _)
  exact ⟨List.cons_ne_nil _ _, h.2.2.1⟩
